import Mathlib

/-!
Shallow embedding of the UDS (Unix domain socket) IPC library `uds.c` and
proofs about its packet codec, connection handler, connection table,
transport reader and client session.

Packet buffers are modelled as `List Nat`, one entry per byte, index 0 being
the first byte on the wire.  Multi-byte fields are read and written
little-endian, matching the single native byte order used consistently by
the C code for both stores and loads.

The packet header `uds_command_t` is not defined under `src/` (only its uses
are), so its layout is modelled from the spec's wire table:
signature (32-bit) at offset 0, command-or-status (32-bit) at offset 4,
data_len (32-bit) at offset 8, checksum (16-bit) at offset 12; the payload
follows, so the header occupies `HDR = 14` bytes.
-/

namespace UDS

/-- Constant `UDS_SIGNATURE` from `uds.h`: 0xDEADBEEF. -/
def UDS_SIGNATURE : Nat := 0xDEADBEEF

/-- Constant `UDS_MAX_CLIENT` from `uds.h`. -/
def UDS_MAX_CLIENT : Nat := 10

/-- Constant `STATUS_ERROR` from the `uds_status_code` enum in `uds.h`
(`STATUS_SUCCESS = 0`, `STATUS_INVALID_COMMAND = 1`, `STATUS_ERROR = 2`). -/
def STATUS_ERROR : Nat := 2

/-- Modelled from the spec: `sizeof(uds_command_t)`.  The header definition is
not under `src/`; the spec's wire table gives 32 + 32 + 32 + 16 bits = 14
bytes. -/
def HDR : Nat := 14

/-- Read one byte of a buffer; out-of-range reads yield 0. -/
def getByte (buf : List Nat) (i : Nat) : Nat := buf.getD i 0

/-- Read a little-endian 16-bit field at byte offset `off`. -/
def getU16 (buf : List Nat) (off : Nat) : Nat :=
  getByte buf off + 256 * getByte buf (off + 1)

/-- Read a little-endian 32-bit field at byte offset `off`. -/
def getU32 (buf : List Nat) (off : Nat) : Nat :=
  getByte buf off + 256 * getByte buf (off + 1)
    + 65536 * getByte buf (off + 2) + 16777216 * getByte buf (off + 3)

/-- Store a 16-bit value little-endian at byte offset `off`. -/
def setU16 (buf : List Nat) (off v : Nat) : List Nat :=
  (buf.set off (v % 256)).set (off + 1) (v / 256 % 256)

/-- Store a 32-bit value little-endian at byte offset `off`. -/
def setU32 (buf : List Nat) (off v : Nat) : List Nat :=
  (((buf.set off (v % 256)).set (off + 1) (v / 256 % 256)).set
      (off + 2) (v / 65536 % 256)).set (off + 3) (v / 16777216 % 256)

/-- The `signature` field of a packet buffer (offset 0). -/
def signature_of (buf : List Nat) : Nat := getU32 buf 0

/-- The command-or-status field of a packet buffer (offset 4). -/
def status_of (buf : List Nat) : Nat := getU32 buf 4

/-- The `data_len` field of a packet buffer (offset 8). -/
def data_len_of (buf : List Nat) : Nat := getU32 buf 8

/-- The `checksum` field of a packet buffer (offset 12). -/
def checksum_of (buf : List Nat) : Nat := getU16 buf 12

/-- Word `word[i]` in `compute_checksum`: the 16-bit word at byte offset `2*i`. -/
def wordAt (buf : List Nat) (i : Nat) : Nat :=
  getByte buf (2 * i) + 256 * getByte buf (2 * i + 1)

/-- The word-summing loop of `compute_checksum`:
`for (i = 0; i < n; i++) sum += word[i];`. -/
def sumWords (buf : List Nat) : Nat → Nat
  | 0 => 0
  | n + 1 => sumWords buf n + wordAt buf n

/-- The value of `sum` in `compute_checksum` before carry folding: the words
`word[0..len/2)` plus, when `len` is odd (`len & 1`), the final byte
`byte[len-1]` as its own term. -/
def rawSum (buf : List Nat) : Nat :=
  if buf.length % 2 = 1 then
    sumWords buf (buf.length / 2) + getByte buf (buf.length - 1)
  else
    sumWords buf (buf.length / 2)

/-- The carry-folding loop of `compute_checksum`,
`while (sum>>16) sum = (sum>>16) + (sum&0xFFFF);`, with an explicit fuel
argument bounding the number of iterations (each iteration strictly
decreases `sum`, so `s` itself is always enough fuel). -/
def foldCarriesAux : Nat → Nat → Nat
  | 0, s => s
  | fuel + 1, s =>
    if s < 65536 then s else foldCarriesAux fuel (s / 65536 + s % 65536)

/-- The carry folding of `compute_checksum`, run with sufficient fuel. -/
def foldCarries (s : Nat) : Nat := foldCarriesAux s s

/-- Function `compute_checksum` from `uds.c`: fold the raw 16-bit-word sum and return
the (16-bit truncated) bitwise complement `(uint16_t)(~sum)`. -/
def compute_checksum (buf : List Nat) : Nat :=
  65535 - foldCarries (rawSum buf)

/-- Function `verify_command_packet` from `uds.c`, applied to the `len` bytes actually
received: signature check, declared-length check, checksum check. -/
def verify_command_packet (buf : List Nat) : Bool :=
  if signature_of buf ≠ UDS_SIGNATURE then false
  else if data_len_of buf + HDR ≠ buf.length then false
  else if compute_checksum buf ≠ 0 then false
  else true

/-! ### Basic byte/field lemmas -/

theorem getByte_set_ne (l : List Nat) (i j v : Nat) (h : i ≠ j) :
    getByte (l.set i v) j = getByte l j := by
  simp [getByte, List.getD_eq_getElem?_getD, List.getElem?_set_ne h]

theorem getByte_set_self (l : List Nat) (i v : Nat) (h : i < l.length) :
    getByte (l.set i v) i = v := by
  simp [getByte, List.getD_eq_getElem?_getD, List.getElem?_set_eq_of_lt v h]

theorem getByte_set (l : List Nat) (i j v : Nat) :
    getByte (l.set i v) j =
      if i = j ∧ i < l.length then v else getByte l j := by
  split
  · rename_i h
    obtain ⟨h1, h2⟩ := h
    subst h1
    exact getByte_set_self l i v h2
  · rename_i h
    by_cases hij : i = j
    · subst hij
      rw [List.set_eq_of_length_le (by omega)]
    · exact getByte_set_ne l i j v hij

theorem getByte_take (l : List Nat) (n j : Nat) (h : j < n) :
    getByte (l.take n) j = getByte l j := by
  simp [getByte, List.getD_eq_getElem?_getD, List.getElem?_take, h]

@[simp] theorem length_setU16 (l : List Nat) (off v : Nat) :
    (setU16 l off v).length = l.length := by
  simp [setU16]

@[simp] theorem length_setU32 (l : List Nat) (off v : Nat) :
    (setU32 l off v).length = l.length := by
  simp [setU32]

theorem getByte_setU16 (l : List Nat) (off v j : Nat) :
    getByte (setU16 l off v) j =
      if off + 1 = j ∧ off + 1 < l.length then v / 256 % 256
      else if off = j ∧ off < l.length then v % 256
      else getByte l j := by
  simp only [setU16, getByte_set, List.length_set]

theorem getByte_setU16_ne (l : List Nat) (off v j : Nat)
    (h1 : j ≠ off) (h2 : j ≠ off + 1) :
    getByte (setU16 l off v) j = getByte l j := by
  unfold setU16
  rw [getByte_set_ne _ _ _ _ (fun h => h2 h.symm),
    getByte_set_ne _ _ _ _ (fun h => h1 h.symm)]

theorem getByte_setU32_ne (l : List Nat) (off v j : Nat)
    (h1 : j ≠ off) (h2 : j ≠ off + 1) (h3 : j ≠ off + 2) (h4 : j ≠ off + 3) :
    getByte (setU32 l off v) j = getByte l j := by
  unfold setU32
  rw [getByte_set_ne _ _ _ _ (fun h => h4 h.symm),
    getByte_set_ne _ _ _ _ (fun h => h3 h.symm),
    getByte_set_ne _ _ _ _ (fun h => h2 h.symm),
    getByte_set_ne _ _ _ _ (fun h => h1 h.symm)]

theorem getU16_setU16_self (l : List Nat) (off v : Nat)
    (hlen : off + 1 < l.length) (hv : v < 65536) :
    getU16 (setU16 l off v) off = v := by
  unfold getU16
  rw [getByte_setU16, getByte_setU16]
  split_ifs <;> omega

theorem getByte_setU32_at0 (l : List Nat) (off v : Nat) (h : off < l.length) :
    getByte (setU32 l off v) off = v % 256 := by
  unfold setU32
  rw [getByte_set_ne _ _ _ _ (by omega), getByte_set_ne _ _ _ _ (by omega),
    getByte_set_ne _ _ _ _ (by omega), getByte_set_self _ _ _ h]

theorem getByte_setU32_at1 (l : List Nat) (off v : Nat) (h : off + 1 < l.length) :
    getByte (setU32 l off v) (off + 1) = v / 256 % 256 := by
  unfold setU32
  rw [getByte_set_ne _ _ _ _ (by omega), getByte_set_ne _ _ _ _ (by omega),
    getByte_set_self _ _ _ (by rw [List.length_set]; exact h)]

theorem getByte_setU32_at2 (l : List Nat) (off v : Nat) (h : off + 2 < l.length) :
    getByte (setU32 l off v) (off + 2) = v / 65536 % 256 := by
  unfold setU32
  rw [getByte_set_ne _ _ _ _ (by omega),
    getByte_set_self _ _ _ (by simp only [List.length_set]; exact h)]

theorem getByte_setU32_at3 (l : List Nat) (off v : Nat) (h : off + 3 < l.length) :
    getByte (setU32 l off v) (off + 3) = v / 16777216 % 256 := by
  unfold setU32
  rw [getByte_set_self _ _ _ (by simp only [List.length_set]; exact h)]

theorem getU32_setU32_self (l : List Nat) (off v : Nat)
    (hlen : off + 3 < l.length) (hv : v < 4294967296) :
    getU32 (setU32 l off v) off = v := by
  unfold getU32
  rw [getByte_setU32_at0 _ _ _ (by omega), getByte_setU32_at1 _ _ _ (by omega),
    getByte_setU32_at2 _ _ _ (by omega), getByte_setU32_at3 _ _ _ (by omega)]
  omega

/-! ### Carry-fold lemmas -/

theorem foldCarriesAux_le (fuel s : Nat) : foldCarriesAux fuel s ≤ s := by
  induction fuel generalizing s with
  | zero => simp [foldCarriesAux]
  | succ fuel ih =>
    unfold foldCarriesAux
    split
    · exact Nat.le_refl _
    · rename_i h
      refine le_trans (ih _) ?_
      have h1 : 1 ≤ s / 65536 := Nat.one_le_div_iff (by norm_num) |>.2 (by omega)
      have h2 := Nat.div_add_mod s 65536
      omega

theorem foldCarriesAux_pos (fuel s : Nat) (hs : 0 < s) :
    0 < foldCarriesAux fuel s := by
  induction fuel generalizing s with
  | zero => simpa [foldCarriesAux] using hs
  | succ fuel ih =>
    unfold foldCarriesAux
    split
    · exact hs
    · rename_i h
      refine ih _ ?_
      have h1 : 1 ≤ s / 65536 := Nat.one_le_div_iff (by norm_num) |>.2 (by omega)
      omega

theorem foldCarriesAux_modEq (fuel s : Nat) :
    foldCarriesAux fuel s % 65535 = s % 65535 := by
  induction fuel generalizing s with
  | zero => simp [foldCarriesAux]
  | succ fuel ih =>
    unfold foldCarriesAux
    split
    · rfl
    · rw [ih]
      have h2 := Nat.div_add_mod s 65536
      omega

theorem foldCarriesAux_lt (fuel s : Nat) (h : s ≤ fuel) :
    foldCarriesAux fuel s < 65536 := by
  induction fuel generalizing s with
  | zero =>
    have : s = 0 := by omega
    simp [foldCarriesAux, this]
  | succ fuel ih =>
    unfold foldCarriesAux
    split
    · assumption
    · rename_i hge
      refine ih _ ?_
      have h1 : 1 ≤ s / 65536 := Nat.one_le_div_iff (by norm_num) |>.2 (by omega)
      have h2 := Nat.div_add_mod s 65536
      omega

theorem foldCarries_lt (s : Nat) : foldCarries s < 65536 :=
  foldCarriesAux_lt s s (Nat.le_refl s)

theorem foldCarries_le (s : Nat) : foldCarries s ≤ s :=
  foldCarriesAux_le s s

theorem foldCarries_pos (s : Nat) (hs : 0 < s) : 0 < foldCarries s :=
  foldCarriesAux_pos s s hs

theorem foldCarries_modEq (s : Nat) : foldCarries s % 65535 = s % 65535 :=
  foldCarriesAux_modEq s s

/-! ### Word-sum lemmas -/

theorem sumWords_eq_sum (buf : List Nat) (n : Nat) :
    sumWords buf n = ∑ i in Finset.range n, wordAt buf i := by
  induction n with
  | zero => simp [sumWords]
  | succ n ih => rw [sumWords, ih, Finset.sum_range_succ]

theorem sumWords_congr (b z : List Nat) (n : Nat)
    (h : ∀ i, i < n → wordAt b i = wordAt z i) : sumWords b n = sumWords z n := by
  induction n with
  | zero => rfl
  | succ n ih =>
    rw [sumWords, sumWords, ih (fun i hi => h i (by omega)), h n (by omega)]

theorem sumWords_update (z b : List Nat) (n j c : Nat) (hj : j < n)
    (hne : ∀ i, i < n → i ≠ j → wordAt b i = wordAt z i)
    (hz : wordAt z j = 0) (hb : wordAt b j = c) :
    sumWords b n = sumWords z n + c := by
  induction n with
  | zero => omega
  | succ n ih =>
    rw [sumWords, sumWords]
    by_cases hjn : j = n
    · subst hjn
      rw [hb, hz,
        sumWords_congr b z j (fun i hi => hne i (by omega) (by omega))]
      omega
    · rw [ih (by omega) (fun i hi hij => hne i (by omega) hij),
        hne n (by omega) (fun h => hjn h.symm)]
      omega

/-- Writing the 16-bit checksum field (offset 12, i.e. word 6) leaves every
other 16-bit word unchanged. -/
theorem wordAt_setU16_12_ne (l : List Nat) (x i : Nat) (h : i ≠ 6) :
    wordAt (setU16 l 12 x) i = wordAt l i := by
  unfold wordAt
  rw [getByte_setU16_ne l 12 x (2 * i) (by omega) (by omega),
    getByte_setU16_ne l 12 x (2 * i + 1) (by omega) (by omega)]

/-- Writing the 16-bit checksum field makes word 6 that value. -/
theorem wordAt_setU16_12_self (l : List Nat) (x : Nat)
    (h : 13 < l.length) (hx : x < 65536) :
    wordAt (setU16 l 12 x) 6 = x := by
  have h16 := getU16_setU16_self l 12 x (by omega) hx
  unfold getU16 at h16
  unfold wordAt
  norm_num at h16 ⊢
  omega

/-- Storing `c` into the checksum field of a buffer whose checksum field is
zero adds exactly `c` to the raw 16-bit-word sum of `compute_checksum`. -/
theorem rawSum_store_checksum (buf : List Nat) (c : Nat)
    (hlen : 14 ≤ buf.length) (hc : c < 65536) :
    rawSum (setU16 (setU16 buf 12 0) 12 c) = rawSum (setU16 buf 12 0) + c := by
  have hzlen : (setU16 buf 12 0).length = buf.length := by simp
  have hblen : (setU16 (setU16 buf 12 0) 12 c).length = buf.length := by simp
  have hwords : sumWords (setU16 (setU16 buf 12 0) 12 c) (buf.length / 2)
      = sumWords (setU16 buf 12 0) (buf.length / 2) + c := by
    refine sumWords_update _ _ _ 6 c (by omega) ?_ ?_ ?_
    · intro i _ hi6
      exact wordAt_setU16_12_ne _ c i hi6
    · exact wordAt_setU16_12_self _ 0 (by omega) (by omega)
    · exact wordAt_setU16_12_self _ c (by simp; omega) hc
  unfold rawSum
  rw [hzlen, hblen]
  by_cases hodd : buf.length % 2 = 1
  · simp only [hodd, if_pos]
    rw [getByte_setU16_ne _ 12 c (buf.length - 1) (by omega) (by omega)]
    omega
  · simp only [hodd, if_neg, if_false]
    omega

/-- Round-trip core: zero the checksum field, compute the checksum over the
whole buffer, store it back; re-running `compute_checksum` over the stored
buffer yields 0.  Shared by the packet-codec and handler-loop results. -/
theorem checksum_roundtrip (buf : List Nat) (h : 14 ≤ buf.length) :
    compute_checksum
      (setU16 (setU16 buf 12 0) 12 (compute_checksum (setU16 buf 12 0))) = 0 := by
  have hf_lt : foldCarries (rawSum (setU16 buf 12 0)) < 65536 := foldCarries_lt _
  have hf_le : foldCarries (rawSum (setU16 buf 12 0)) ≤ rawSum (setU16 buf 12 0) :=
    foldCarries_le _
  have hf_mod := foldCarries_modEq (rawSum (setU16 buf 12 0))
  have hc : compute_checksum (setU16 buf 12 0) < 65536 := by
    unfold compute_checksum; omega
  have hraw := rawSum_store_checksum buf (compute_checksum (setU16 buf 12 0)) h hc
  unfold compute_checksum at hraw ⊢
  rw [hraw]
  have hpos : 0 < rawSum (setU16 buf 12 0)
      + (65535 - foldCarries (rawSum (setU16 buf 12 0))) := by omega
  have hg_lt := foldCarries_lt (rawSum (setU16 buf 12 0)
      + (65535 - foldCarries (rawSum (setU16 buf 12 0))))
  have hg_pos := foldCarries_pos _ hpos
  have hg_mod := foldCarries_modEq (rawSum (setU16 buf 12 0)
      + (65535 - foldCarries (rawSum (setU16 buf 12 0))))
  omega

/-! ### Disjoint-field lemmas -/

theorem getU32_setU16_ne (l : List Nat) (x off off' : Nat)
    (h : off' + 3 < off ∨ off + 1 < off') :
    getU32 (setU16 l off x) off' = getU32 l off' := by
  unfold getU32
  rw [getByte_setU16_ne l off x off' (by omega) (by omega),
    getByte_setU16_ne l off x (off' + 1) (by omega) (by omega),
    getByte_setU16_ne l off x (off' + 2) (by omega) (by omega),
    getByte_setU16_ne l off x (off' + 3) (by omega) (by omega)]

theorem getU32_setU32_ne (l : List Nat) (x off off' : Nat)
    (h : off' + 3 < off ∨ off + 3 < off') :
    getU32 (setU32 l off x) off' = getU32 l off' := by
  unfold getU32
  rw [getByte_setU32_ne l off x off' (by omega) (by omega) (by omega) (by omega),
    getByte_setU32_ne l off x (off' + 1) (by omega) (by omega) (by omega) (by omega),
    getByte_setU32_ne l off x (off' + 2) (by omega) (by omega) (by omega) (by omega),
    getByte_setU32_ne l off x (off' + 3) (by omega) (by omega) (by omega) (by omega)]

theorem getU16_setU32_ne (l : List Nat) (x off off' : Nat)
    (h : off' + 1 < off ∨ off + 3 < off') :
    getU16 (setU32 l off x) off' = getU16 l off' := by
  unfold getU16
  rw [getByte_setU32_ne l off x off' (by omega) (by omega) (by omega) (by omega),
    getByte_setU32_ne l off x (off' + 1) (by omega) (by omega) (by omega) (by omega)]

theorem getU32_take (l : List Nat) (n off : Nat) (h : off + 3 < n) :
    getU32 (l.take n) off = getU32 l off := by
  unfold getU32
  rw [getByte_take l n off (by omega), getByte_take l n (off + 1) (by omega),
    getByte_take l n (off + 2) (by omega), getByte_take l n (off + 3) (by omega)]

theorem getU16_take (l : List Nat) (n off : Nat) (h : off + 1 < n) :
    getU16 (l.take n) off = getU16 l off := by
  unfold getU16
  rw [getByte_take l n off (by omega), getByte_take l n (off + 1) (by omega)]

theorem setU16_take (l : List Nat) (n off v : Nat) :
    (setU16 l off v).take n = setU16 (l.take n) off v := by
  simp [setU16, List.set_take]

theorem setU16_setU16 (l : List Nat) (off a b : Nat) :
    setU16 (setU16 l off a) off b = setU16 l off b := by
  unfold setU16
  rw [List.set_comm _ _ _ (by omega : off + 1 ≠ off), List.set_set, List.set_set]

/-! ### Connection handler (`request_handle_routine`) -/

/-- Outcome of one iteration of the `request_handle_routine` loop body:
the connection is closed (empty/failed receive), the packet is discarded
(`continue` after a failed validation), or exactly one response is sent. -/
inductive HandlerStep where
  | closeConn : HandlerStep
  | dropPacket : HandlerStep
  | reply (resp : List Nat) : HandlerStep
deriving DecidableEq

/-- REPLYING phase of `request_handle_routine`: if the callback returned no
result, reuse the inbound buffer with `status = STATUS_ERROR` and
`data_len = 0`; then copy the request's signature, zero the checksum field,
compute the checksum over the `resp_len = sizeof(uds_command_t) + data_len`
bytes, store it, and send those `resp_len` bytes. -/
def buildResponse (req : List Nat) (respOpt : Option (List Nat)) : List Nat :=
  let resp := match respOpt with
    | none => setU32 (setU32 req 4 STATUS_ERROR) 8 0
    | some r => r
  let resp_len := HDR + data_len_of resp
  let r1 := setU32 resp 0 (signature_of req)
  let r2 := setU16 r1 12 0
  let r3 := setU16 r2 12 (compute_checksum (r2.take resp_len))
  r3.take resp_len

/-- One iteration of the `request_handle_routine` loop, as a function of the
received burst `req` (its length is the `recv_data` result): an empty burst
closes the connection, an invalid packet is dropped, and otherwise exactly
one response is built and sent. -/
def handleBurst (handler : List Nat → Option (List Nat)) (req : List Nat) :
    HandlerStep :=
  if req.length = 0 then .closeConn
  else if verify_command_packet req = false then .dropPacket
  else .reply (buildResponse req (handler req))

/-- Per-connection state visible to the handler loop: the slot's in-use flag,
whether the connection's descriptor is still open, and the descriptor. -/
structure ConnState where
  inuse : Bool
  fdOpen : Bool
  client_fd : Nat
deriving DecidableEq

/-- Effect of a handler-loop step on the connection state: closing releases
the slot and the descriptor; dropping a packet and replying leave the
connection untouched. -/
def applyStep (st : ConnState) : HandlerStep → ConnState
  | .closeConn => { st with inuse := false, fdOpen := false }
  | .dropPacket => st
  | .reply _ => st

/-! ### More helper lemmas -/

theorem getByte_lt (l : List Nat) (i : Nat) (h : ∀ b ∈ l, b < 256) :
    getByte l i < 256 := by
  unfold getByte
  rcases lt_or_ge i l.length with hi | hi
  · rw [List.getD_eq_getElem l 0 hi]
    exact h _ (List.getElem_mem hi)
  · rw [List.getD_eq_default l 0 hi]
    norm_num

theorem getU32_lt (l : List Nat) (off : Nat) (h : ∀ b ∈ l, b < 256) :
    getU32 l off < 4294967296 := by
  have h0 := getByte_lt l off h
  have h1 := getByte_lt l (off + 1) h
  have h2 := getByte_lt l (off + 2) h
  have h3 := getByte_lt l (off + 3) h
  unfold getU32
  omega

theorem compute_checksum_lt (buf : List Nat) : compute_checksum buf < 65536 := by
  unfold compute_checksum
  omega

theorem verify_eq_true_iff (buf : List Nat) :
    verify_command_packet buf = true ↔
      signature_of buf = UDS_SIGNATURE ∧ data_len_of buf + HDR = buf.length
        ∧ compute_checksum buf = 0 := by
  unfold verify_command_packet
  split_ifs <;> simp_all

/-! ### Claim C1 -/

/-- C1: checksum round-trip.  For every packet buffer (at least a full
header long), zeroing the 16-bit checksum field, running `compute_checksum`
over the whole buffer and storing the result into that field makes a
re-run of `compute_checksum` over the resulting buffer return exactly 0;
consequently, when the signature and declared length are also correct, the
packet passes `verify_command_packet`. -/
theorem C1_checksum_roundtrip (buf : List Nat) (h : 14 ≤ buf.length) :
    compute_checksum
      (setU16 (setU16 buf 12 0) 12 (compute_checksum (setU16 buf 12 0))) = 0
    ∧ (signature_of buf = UDS_SIGNATURE → data_len_of buf + HDR = buf.length →
        verify_command_packet
          (setU16 (setU16 buf 12 0) 12 (compute_checksum (setU16 buf 12 0)))
          = true) := by
  refine ⟨checksum_roundtrip buf h, fun hsig hlen => ?_⟩
  have h1 : signature_of
      (setU16 (setU16 buf 12 0) 12 (compute_checksum (setU16 buf 12 0)))
      = signature_of buf := by
    unfold signature_of
    rw [getU32_setU16_ne (setU16 buf 12 0) _ 12 0 (by omega),
      getU32_setU16_ne buf _ 12 0 (by omega)]
  have h2 : data_len_of
      (setU16 (setU16 buf 12 0) 12 (compute_checksum (setU16 buf 12 0)))
      = data_len_of buf := by
    unfold data_len_of
    rw [getU32_setU16_ne (setU16 buf 12 0) _ 12 8 (by omega),
      getU32_setU16_ne buf _ 12 8 (by omega)]
  have h3 : (setU16 (setU16 buf 12 0) 12
      (compute_checksum (setU16 buf 12 0))).length = buf.length := by simp
  have h4 := checksum_roundtrip buf h
  unfold verify_command_packet
  rw [h1, h2, h3, hsig, h4]
  simp [hlen]

/-- Closed witness for C1 at a concrete 14-byte GET_VERSION-style packet. -/
theorem C1_checksum_roundtrip_witness :
    compute_checksum
      (setU16 (setU16 ([239, 190, 173, 222, 1, 0, 0, 0, 0, 0, 0, 0, 7, 7] : List Nat) 12 0)
        12 (compute_checksum
          (setU16 ([239, 190, 173, 222, 1, 0, 0, 0, 0, 0, 0, 0, 7, 7] : List Nat) 12 0))) = 0
    ∧ verify_command_packet
        (setU16 (setU16 ([239, 190, 173, 222, 1, 0, 0, 0, 0, 0, 0, 0, 7, 7] : List Nat) 12 0)
          12 (compute_checksum
            (setU16 ([239, 190, 173, 222, 1, 0, 0, 0, 0, 0, 0, 0, 7, 7] : List Nat) 12 0)))
        = true := by
  have h := C1_checksum_roundtrip
    ([239, 190, 173, 222, 1, 0, 0, 0, 0, 0, 0, 0, 7, 7] : List Nat) (by decide)
  exact ⟨h.1, h.2 (by decide) (by decide)⟩

/-! ### Claim C2 -/

/-- C2: for a buffer of odd byte length `n`, `compute_checksum` folds the sum
of the `(n-1)/2` leading full 16-bit words plus the final byte `buf[n-1]`
taken exactly once as its own word; for even `n` no extra byte enters the
sum. -/
theorem C2_odd_final_byte (buf : List Nat) :
    (buf.length % 2 = 1 →
      compute_checksum buf =
        65535 - foldCarries
          ((∑ i in Finset.range ((buf.length - 1) / 2), wordAt buf i)
            + getByte buf (buf.length - 1)))
    ∧ (buf.length % 2 = 0 →
      compute_checksum buf =
        65535 - foldCarries (∑ i in Finset.range (buf.length / 2), wordAt buf i)) := by
  constructor
  · intro hodd
    have hdiv : (buf.length - 1) / 2 = buf.length / 2 := by omega
    unfold compute_checksum rawSum
    rw [if_pos hodd, sumWords_eq_sum, hdiv]
  · intro heven
    unfold compute_checksum rawSum
    rw [if_neg (by omega), sumWords_eq_sum]

/-- Closed witness for C2 at a concrete odd-length and even-length buffer. -/
theorem C2_odd_final_byte_witness :
    compute_checksum ([1, 2, 3] : List Nat) =
      65535 - foldCarries
        ((∑ i in Finset.range 1, wordAt ([1, 2, 3] : List Nat) i)
          + getByte ([1, 2, 3] : List Nat) 2)
    ∧ compute_checksum ([1, 2, 3, 4] : List Nat) =
      65535 - foldCarries (∑ i in Finset.range 2, wordAt ([1, 2, 3, 4] : List Nat) i) :=
  ⟨(C2_odd_final_byte [1, 2, 3]).1 (by decide),
   (C2_odd_final_byte [1, 2, 3, 4]).2 (by decide)⟩

/-! ### Claim C5 -/

/-- C5: `verify_command_packet` fails on every buffer whose declared
`data_len` plus the header size differs from the number of bytes observed,
regardless of the signature and checksum fields. -/
theorem C5_length_mismatch_rejected (buf : List Nat)
    (h : data_len_of buf + HDR ≠ buf.length) :
    verify_command_packet buf = false := by
  unfold verify_command_packet
  split_ifs <;> rfl

/-- Closed witness for C5: a packet with correct signature and checksum but
declared `data_len = 5` delivered in only 14 bytes is rejected. -/
theorem C5_length_mismatch_rejected_witness :
    verify_command_packet
      ([239, 190, 173, 222, 1, 0, 0, 0, 5, 0, 0, 0, 97, 98] : List Nat) = false :=
  C5_length_mismatch_rejected _ (by decide)

/-! ### Claim C3 -/

/-- Core facts about the response bytes emitted by the REPLYING phase, for a
callback result `r` whose allocation holds its declared packet: the
signature is copied from the request, `status` and `data_len` come from `r`,
the reply is exactly `resp_len = HDR + data_len` bytes, the stored checksum
is the one computed with the checksum field zeroed, and the whole reply
re-checksums to 0. -/
theorem buildResponse_some_spec (req r : List Nat)
    (hbytes : ∀ b ∈ req, b < 256)
    (hr : HDR + data_len_of r ≤ r.length) :
    signature_of (buildResponse req (some r)) = signature_of req
    ∧ status_of (buildResponse req (some r)) = status_of r
    ∧ data_len_of (buildResponse req (some r)) = data_len_of r
    ∧ (buildResponse req (some r)).length = HDR + data_len_of r
    ∧ checksum_of (buildResponse req (some r))
        = compute_checksum (setU16 (buildResponse req (some r)) 12 0)
    ∧ compute_checksum (buildResponse req (some r)) = 0 := by
  have hHDR : HDR = 14 := rfl
  have hout : buildResponse req (some r) =
      setU16 (setU16 ((setU32 r 0 (signature_of req)).take (HDR + data_len_of r)) 12 0)
        12 (compute_checksum
          (setU16 ((setU32 r 0 (signature_of req)).take (HDR + data_len_of r)) 12 0)) := by
    show (setU16 (setU16 (setU32 r 0 (signature_of req)) 12 0) 12
        (compute_checksum ((setU16 (setU32 r 0 (signature_of req)) 12 0).take
          (HDR + data_len_of r)))).take (HDR + data_len_of r) = _
    rw [setU16_take, setU16_take]
  have hr1len : (setU32 r 0 (signature_of req)).length = r.length := by simp
  have hBlen : ((setU32 r 0 (signature_of req)).take (HDR + data_len_of r)).length
      = HDR + data_len_of r := by
    rw [List.length_take_of_le (by omega)]
  refine ⟨?_, ?_, ?_, ?_, ?_, ?_⟩
  · rw [hout]
    unfold signature_of
    rw [getU32_setU16_ne _ _ 12 0 (by omega), getU32_setU16_ne _ _ 12 0 (by omega),
      getU32_take _ _ 0 (by omega), getU32_setU32_self _ _ _ (by omega)
        (getU32_lt req 0 hbytes)]
  · rw [hout]
    unfold status_of
    rw [getU32_setU16_ne _ _ 12 4 (by omega), getU32_setU16_ne _ _ 12 4 (by omega),
      getU32_take _ _ 4 (by omega), getU32_setU32_ne _ _ 0 4 (by omega)]
  · rw [hout]
    unfold data_len_of
    rw [getU32_setU16_ne _ _ 12 8 (by omega), getU32_setU16_ne _ _ 12 8 (by omega),
      getU32_take _ _ 8 (by omega), getU32_setU32_ne _ _ 0 8 (by omega)]
  · rw [hout]
    simp only [length_setU16]
    exact hBlen
  · rw [hout]
    unfold checksum_of
    rw [getU16_setU16_self _ _ _ (by simp only [length_setU16]; omega)
      (compute_checksum_lt _)]
    rw [setU16_setU16, setU16_setU16]
  · rw [hout]
    exact checksum_roundtrip _ (by omega)

/-- C3: exactly-once reply with generic-error fallback.  For every burst that
passes validation, `request_handle_routine` performs exactly one send, of
`buildResponse req (handler req)`; when the callback returns no result the
reply reuses the inbound buffer with `status = STATUS_ERROR` and a
zero-length payload; in every case the reply's signature is copied from the
request, its stored checksum is the checksum computed with the field zeroed
(so the reply re-checksums to 0), and the full `HDR + data_len` bytes are
written. -/
theorem C3_reply_exactly_once (handler : List Nat → Option (List Nat))
    (req : List Nat) (hv : verify_command_packet req = true)
    (hbytes : ∀ b ∈ req, b < 256)
    (hok : ∀ r, handler req = some r → HDR + data_len_of r ≤ r.length) :
    handleBurst handler req = .reply (buildResponse req (handler req))
    ∧ signature_of (buildResponse req (handler req)) = signature_of req
    ∧ (buildResponse req (handler req)).length
        = HDR + data_len_of (buildResponse req (handler req))
    ∧ checksum_of (buildResponse req (handler req))
        = compute_checksum (setU16 (buildResponse req (handler req)) 12 0)
    ∧ compute_checksum (buildResponse req (handler req)) = 0
    ∧ (handler req = none →
        status_of (buildResponse req (handler req)) = STATUS_ERROR
        ∧ data_len_of (buildResponse req (handler req)) = 0
        ∧ (buildResponse req (handler req)).length = HDR) := by
  have hHDR : HDR = 14 := rfl
  obtain ⟨hsig, hlen, hchk⟩ := (verify_eq_true_iff req).1 hv
  have hreqlen : 14 ≤ req.length := by omega
  have hstep : handleBurst handler req = .reply (buildResponse req (handler req)) := by
    unfold handleBurst
    rw [if_neg (by omega), if_neg (by simp [hv])]
  cases hcb : handler req with
  | some r =>
    obtain ⟨g1, g2, g3, g4, g5, g6⟩ :=
      buildResponse_some_spec req r hbytes (hok r hcb)
    rw [hcb] at hstep
    exact ⟨hstep, g1, by rw [g4, g3], g5, g6, fun habs => nomatch habs⟩
  | none =>
    have hnone : buildResponse req none
        = buildResponse req (some (setU32 (setU32 req 4 STATUS_ERROR) 8 0)) := rfl
    have hstatus : status_of (setU32 (setU32 req 4 STATUS_ERROR) 8 0)
        = STATUS_ERROR := by
      unfold status_of
      rw [getU32_setU32_ne _ _ 8 4 (by omega),
        getU32_setU32_self _ _ _ (by omega) (by norm_num [STATUS_ERROR])]
    have hdlen : data_len_of (setU32 (setU32 req 4 STATUS_ERROR) 8 0) = 0 := by
      unfold data_len_of
      rw [getU32_setU32_self _ _ _ (by simp only [length_setU32]; omega) (by norm_num)]
    obtain ⟨g1, g2, g3, g4, g5, g6⟩ :=
      buildResponse_some_spec req (setU32 (setU32 req 4 STATUS_ERROR) 8 0) hbytes
        (by simp only [hdlen, length_setU32]; omega)
    rw [hcb] at hstep
    rw [hnone]
    refine ⟨hstep, g1, by rw [g4, g3], g5, g6, fun _ => ?_⟩
    exact ⟨by rw [g2, hstatus], by rw [g3, hdlen], by simp [g4, hdlen]⟩

/-- Closed witness for C3 at a concrete valid 14-byte packet and the
callback that always returns no result. -/
theorem C3_reply_exactly_once_witness :
    handleBurst (fun _ => none)
        ([239, 190, 173, 222, 1, 0, 0, 0, 0, 0, 0, 0, 97, 98] : List Nat)
      = .reply (buildResponse
          ([239, 190, 173, 222, 1, 0, 0, 0, 0, 0, 0, 0, 97, 98] : List Nat) none)
    ∧ signature_of (buildResponse
          ([239, 190, 173, 222, 1, 0, 0, 0, 0, 0, 0, 0, 97, 98] : List Nat) none)
        = signature_of ([239, 190, 173, 222, 1, 0, 0, 0, 0, 0, 0, 0, 97, 98] : List Nat)
    ∧ (buildResponse
          ([239, 190, 173, 222, 1, 0, 0, 0, 0, 0, 0, 0, 97, 98] : List Nat) none).length
        = HDR + data_len_of (buildResponse
            ([239, 190, 173, 222, 1, 0, 0, 0, 0, 0, 0, 0, 97, 98] : List Nat) none)
    ∧ checksum_of (buildResponse
          ([239, 190, 173, 222, 1, 0, 0, 0, 0, 0, 0, 0, 97, 98] : List Nat) none)
        = compute_checksum (setU16 (buildResponse
            ([239, 190, 173, 222, 1, 0, 0, 0, 0, 0, 0, 0, 97, 98] : List Nat) none) 12 0)
    ∧ compute_checksum (buildResponse
          ([239, 190, 173, 222, 1, 0, 0, 0, 0, 0, 0, 0, 97, 98] : List Nat) none) = 0
    ∧ status_of (buildResponse
          ([239, 190, 173, 222, 1, 0, 0, 0, 0, 0, 0, 0, 97, 98] : List Nat) none)
        = STATUS_ERROR
    ∧ data_len_of (buildResponse
          ([239, 190, 173, 222, 1, 0, 0, 0, 0, 0, 0, 0, 97, 98] : List Nat) none) = 0 := by
  have h := C3_reply_exactly_once (fun _ => none)
    ([239, 190, 173, 222, 1, 0, 0, 0, 0, 0, 0, 0, 97, 98] : List Nat)
    (by decide) (by decide) (fun r habs => nomatch habs)
  obtain ⟨g1, g2, g3, g4, g5, g6⟩ := h
  obtain ⟨e1, e2, _⟩ := g6 rfl
  exact ⟨g1, g2, g3, g4, g5, e1, e2⟩

/-! ### Claim C6 -/

/-- C6: packet errors are packet-fatal only.  A received burst that fails
validation is dropped: no reply is sent, the handler callback is never
consulted (the step is identical for every callback), and the loop returns
to receiving with the connection state (slot flag, descriptor) unchanged. -/
theorem C6_invalid_packet_dropped (st : ConnState)
    (handler handler' : List Nat → Option (List Nat)) (req : List Nat)
    (hne : req.length ≠ 0) (hv : verify_command_packet req = false) :
    handleBurst handler req = .dropPacket
    ∧ applyStep st (handleBurst handler req) = st
    ∧ handleBurst handler req = handleBurst handler' req := by
  have h1 : handleBurst handler req = .dropPacket := by
    unfold handleBurst
    rw [if_neg hne, if_pos hv]
  have h2 : handleBurst handler' req = .dropPacket := by
    unfold handleBurst
    rw [if_neg hne, if_pos hv]
  rw [h1, h2]
  exact ⟨rfl, rfl, rfl⟩

/-- Closed witness for C6: a 3-byte garbage burst on a live connection is
dropped identically under two different callbacks. -/
theorem C6_invalid_packet_dropped_witness :
    handleBurst (fun _ => none) ([1, 2, 3] : List Nat) = .dropPacket
    ∧ applyStep ⟨true, true, 5⟩ (handleBurst (fun _ => none) ([1, 2, 3] : List Nat))
        = ⟨true, true, 5⟩
    ∧ handleBurst (fun _ => none) ([1, 2, 3] : List Nat)
        = handleBurst (fun _ => some [7]) ([1, 2, 3] : List Nat) :=
  C6_invalid_packet_dropped ⟨true, true, 5⟩ (fun _ => none) (fun _ => some [7])
    ([1, 2, 3] : List Nat) (by decide) (by decide)

/-! ### Connection table (`server_accept_request`) -/

/-- Result of one `server_accept_request` call on an accepted descriptor:
the connection table after the call, whether the accepted descriptor was
closed by the call, the return code, and which slot (if any) now has a
running handler thread. -/
structure AcceptOutcome where
  conn : List Bool
  closedCl : Bool
  rc : Int
  spawned : Option Nat
deriving DecidableEq

/-- Function `server_accept_request` from `uds.c`, after `accept` has yielded a
descriptor, as a function of the table's in-use flags and of whether
`pthread_create` succeeds: scan for the first free slot; with none free,
close the descriptor and fail; otherwise claim the slot and spawn the
handler thread, undoing the claim and closing the descriptor when thread
creation fails. -/
def server_accept_request (conn : List Bool) (threadOk : Bool) : AcceptOutcome :=
  match conn.findIdx? (fun b => b = false) with
  | none => ⟨conn, true, -1, none⟩
  | some i =>
    if threadOk then ⟨conn.set i true, false, 0, some i⟩
    else ⟨(conn.set i true).set i false, true, -1, none⟩

/-- States of the connection table reachable from server start-up
(`server_init` zeroes the table) under accepts (with either thread-creation
outcome) and handler-exit releases (`sc->inuse = 0`). -/
inductive Reachable : List Bool → Prop where
  | init : Reachable (List.replicate UDS_MAX_CLIENT false)
  | accept (conn : List Bool) (threadOk : Bool) :
      Reachable conn → Reachable (server_accept_request conn threadOk).conn
  | release (conn : List Bool) (i : Nat) :
      Reachable conn → Reachable (conn.set i false)

theorem length_accept_conn (conn : List Bool) (threadOk : Bool) :
    (server_accept_request conn threadOk).conn.length = conn.length := by
  unfold server_accept_request
  rcases h : conn.findIdx? (fun b => b = false) with _ | i
  · rfl
  · by_cases ht : threadOk <;> simp [ht]

theorem Reachable_length (conn : List Bool) (h : Reachable conn) :
    conn.length = UDS_MAX_CLIENT := by
  induction h with
  | init => simp
  | accept conn threadOk _ ih => rw [length_accept_conn, ih]
  | release conn i _ ih => rw [List.length_set, ih]

theorem set_eq_self_of_getElem? (l : List Bool) (i : Nat) (v : Bool)
    (h : l[i]? = some v) : l.set i v = l := by
  apply List.ext_getElem?
  intro n
  by_cases hn : i = n
  · subst hn
    rw [List.getElem?_set_self', h]
    rfl
  · rw [List.getElem?_set_ne hn]

/-! ### Claim C4 -/

/-- C4: bounded admission.  Every reachable table state has at most
`UDS_MAX_CLIENT` slots in use, and an accept arriving while every slot is in
use closes the accepted descriptor immediately (`rc = -1`), spawns no
handler thread (so no bytes are exchanged on it), and leaves the table --
hence all admitted connections -- unmodified. -/
theorem C4_bounded_admission :
    (∀ conn, Reachable conn → conn.countP id ≤ UDS_MAX_CLIENT)
    ∧ (∀ (conn : List Bool) (threadOk : Bool), (∀ b ∈ conn, b = true) →
        server_accept_request conn threadOk = ⟨conn, true, -1, none⟩) := by
  constructor
  · intro conn h
    calc conn.countP id ≤ conn.length := List.countP_le_length id
    _ = UDS_MAX_CLIENT := Reachable_length conn h
  · intro conn threadOk hfull
    unfold server_accept_request
    have hnone : conn.findIdx? (fun b => b = false) = none := by
      rw [List.findIdx?_eq_none_iff]
      intro x hx
      simp [hfull x hx]
    rw [hnone]

/-- Closed witness for C4: the all-free initial table is reachable and has
no slot in use, and a full 10-slot table refuses an accept unchanged. -/
theorem C4_bounded_admission_witness :
    (List.replicate UDS_MAX_CLIENT false).countP id ≤ UDS_MAX_CLIENT
    ∧ server_accept_request (List.replicate 10 true) true
        = ⟨List.replicate 10 true, true, -1, none⟩ :=
  ⟨C4_bounded_admission.1 _ Reachable.init,
   C4_bounded_admission.2 (List.replicate 10 true) true (by decide)⟩

/-! ### Claim C10 -/

/-- C10: accept is atomic on thread-creation failure.  When a free slot
exists but `pthread_create` fails, `server_accept_request` closes the
accepted descriptor, resets the just-claimed slot's in-use flag, and returns
the table exactly as it was, spawning no handler thread. -/
theorem C10_accept_atomic_on_thread_failure (conn : List Bool) (i : Nat)
    (hfind : conn.findIdx? (fun b => b = false) = some i) :
    server_accept_request conn false = ⟨conn, true, -1, none⟩ := by
  unfold server_accept_request
  rw [hfind]
  simp only [Bool.false_eq_true, if_false]
  obtain ⟨hlt, hp, _⟩ := List.findIdx?_eq_some_iff_getElem.mp hfind
  have hfree : conn[i]? = some false := by
    rw [List.getElem?_eq_getElem hlt]
    simpa using hp
  rw [List.set_set, set_eq_self_of_getElem? conn i false hfree]

/-- Closed witness for C10 on a table whose slot 0 is free. -/
theorem C10_accept_atomic_on_thread_failure_witness :
    server_accept_request (List.replicate 10 false) false
      = ⟨List.replicate 10 false, true, -1, none⟩ :=
  C10_accept_atomic_on_thread_failure (List.replicate 10 false) 0 (by decide)

/-! ### Transport reader (`recv_data`) -/

/-- The `recv_data` loop of `uds.c`, driven by the sequence of environment
results it consumes: each element carries one `recv` return value and the
`select` return value the iteration would use next.  A negative `recv`
aborts, zero ends the burst, a positive value advances `pos`; a full buffer
stops the burst, and a non-positive `select` (no data ready within the 10 ms
window) returns what has accumulated. -/
def recv_data_loop (len : Nat) (pos : Nat) : List (Int × Int) → Nat
  | [] => pos
  | (bytes, sel) :: rest =>
    if bytes < 0 then pos
    else if bytes = 0 then pos
    else
      if len ≤ pos + bytes.toNat then pos + bytes.toNat
      else if sel ≤ 0 then pos + bytes.toNat
      else recv_data_loop len (pos + bytes.toNat) rest

/-- Function `recv_data(sockfd, buf, len, flags)` as a function of the environment's
receive results: the burst starts at offset 0. -/
def recv_data (len : Nat) (events : List (Int × Int)) : Nat :=
  recv_data_loop len 0 events

/-- Well-formed environment: each `recv` result never exceeds the remaining
room `len - pos` it was asked for, mirroring `recv(sockfd, buf+pos, len-pos,
flags)`. -/
def EnvOk (len : Nat) : Nat → List (Int × Int) → Bool
  | _, [] => true
  | pos, (bytes, _) :: rest =>
    decide (bytes ≤ (len : Int) - (pos : Int)) && EnvOk len (pos + bytes.toNat) rest

theorem recv_data_loop_le (len : Nat) (evts : List (Int × Int)) :
    ∀ pos, pos ≤ len → EnvOk len pos evts = true →
      recv_data_loop len pos evts ≤ len := by
  induction evts with
  | nil =>
    intro pos hpos _
    simpa [recv_data_loop] using hpos
  | cons e rest ih =>
    intro pos hpos henv
    obtain ⟨bytes, sel⟩ := e
    rw [EnvOk, Bool.and_eq_true, decide_eq_true_eq] at henv
    obtain ⟨hb, henv'⟩ := henv
    unfold recv_data_loop
    split_ifs with h1 h2 h3 h4
    · exact hpos
    · exact hpos
    · omega
    · omega
    · exact ih (pos + bytes.toNat) (by omega) henv'

/-! ### Claim C7 -/

/-- C7: transport-reader burst semantics.  A zero-byte receive ends the
burst (a zero total when nothing was accumulated); a positive receive of
`k` bytes advances the offset by `k`; the burst stops as soon as the buffer
is full and, for receive results bounded by the room requested, never
accumulates more than `len` bytes; a non-positive `select` result (no data
within the 10 ms wait) returns the bytes accumulated so far; a negative
receive aborts immediately. -/
theorem C7_recv_burst :
    (∀ (len pos : Nat) (sel : Int) (rest : List (Int × Int)),
      recv_data_loop len pos ((0, sel) :: rest) = pos)
    ∧ (∀ (len : Nat) (sel : Int) (rest : List (Int × Int)),
      recv_data len ((0, sel) :: rest) = 0)
    ∧ (∀ (len pos : Nat) (k sel : Int) (rest : List (Int × Int)),
      0 < k → pos + k.toNat < len → 0 < sel →
        recv_data_loop len pos ((k, sel) :: rest)
          = recv_data_loop len (pos + k.toNat) rest)
    ∧ (∀ (len pos : Nat) (k sel : Int) (rest : List (Int × Int)),
      0 < k → len ≤ pos + k.toNat →
        recv_data_loop len pos ((k, sel) :: rest) = pos + k.toNat)
    ∧ (∀ (len pos : Nat) (k sel : Int) (rest : List (Int × Int)),
      0 < k → pos + k.toNat < len → sel ≤ 0 →
        recv_data_loop len pos ((k, sel) :: rest) = pos + k.toNat)
    ∧ (∀ (len : Nat) (evts : List (Int × Int)),
      EnvOk len 0 evts = true → recv_data len evts ≤ len)
    ∧ (∀ (len pos : Nat) (k sel : Int) (rest : List (Int × Int)),
      k < 0 → recv_data_loop len pos ((k, sel) :: rest) = pos) := by
  refine ⟨?_, ?_, ?_, ?_, ?_, ?_, ?_⟩
  · intro len pos sel rest
    simp [recv_data_loop]
  · intro len sel rest
    simp [recv_data, recv_data_loop]
  · intro len pos k sel rest hk hroom hsel
    simp only [recv_data_loop]
    rw [if_neg (by omega), if_neg (by omega), if_neg (by omega), if_neg (by omega)]
  · intro len pos k sel rest hk hfull
    simp only [recv_data_loop]
    rw [if_neg (by omega), if_neg (by omega), if_pos hfull]
  · intro len pos k sel rest hk hroom hsel
    simp only [recv_data_loop]
    rw [if_neg (by omega), if_neg (by omega), if_neg (by omega), if_pos hsel]
  · intro len evts henv
    exact recv_data_loop_le len evts 0 (by omega) henv
  · intro len pos k sel rest hk
    simp only [recv_data_loop]
    rw [if_pos hk]

/-- Closed witness for C7 at concrete bursts over a 10-byte buffer. -/
theorem C7_recv_burst_witness :
    recv_data_loop 10 4 [((0 : Int), (1 : Int))] = 4
    ∧ recv_data 10 [((0 : Int), (1 : Int))] = 0
    ∧ recv_data_loop 10 2 [((3 : Int), (1 : Int)), ((0 : Int), (0 : Int))]
        = recv_data_loop 10 5 [((0 : Int), (0 : Int))]
    ∧ recv_data_loop 10 8 [((2 : Int), (1 : Int))] = 10
    ∧ recv_data_loop 10 2 [((3 : Int), (0 : Int))] = 5
    ∧ recv_data 10 [((5 : Int), (1 : Int)), ((5 : Int), (1 : Int))] ≤ 10
    ∧ recv_data_loop 10 4 [((-1 : Int), (1 : Int))] = 4 :=
  ⟨C7_recv_burst.1 10 4 1 [],
   C7_recv_burst.2.1 10 1 [],
   C7_recv_burst.2.2.1 10 2 3 1 [(0, 0)] (by decide) (by decide) (by decide),
   C7_recv_burst.2.2.2.1 10 8 2 1 [] (by decide) (by decide),
   C7_recv_burst.2.2.2.2.1 10 2 3 0 [] (by decide) (by decide) (by decide),
   C7_recv_burst.2.2.2.2.2.1 10 [(5, 1), (5, 1)] (by decide),
   C7_recv_burst.2.2.2.2.2.2 10 4 (-1) 1 [] (by decide)⟩

/-! ### Client session (`client_init`, `client_send_request`) -/

/-- The connect-retry loop of `client_init`,
`do { rc = connect(...); if (rc == 0) break; else sleep(1); } while
(timeout-- > 0);`, as a function of which attempts succeed: attempt index
`k` runs first with `t` the current value of `timeout`; the result is
(attempts made, sleeps performed, connected?). -/
def connect_loop (connectOk : Nat → Bool) (k : Nat) : Nat → Nat × Nat × Bool
  | 0 => if connectOk k then (1, 0, true) else (1, 1, false)
  | t + 1 =>
    if connectOk k then (1, 0, true)
    else
      let r := connect_loop connectOk (k + 1) t
      (r.1 + 1, r.2.1 + 1, r.2.2)

/-- Outcome of `client_init` for a non-negative timeout, assuming `malloc` and
`socket` succeed: the session is returned exactly when the connect loop
succeeded; otherwise the descriptor is closed, the session freed, and NULL
returned (`none`). -/
def client_init (connectOk : Nat → Bool) (timeout : Nat) : Option Unit :=
  if (connect_loop connectOk 0 timeout).2.2 then some () else none

theorem connect_loop_attempts_pos (f : Nat → Bool) (t k : Nat) :
    1 ≤ (connect_loop f k t).1 := by
  cases t <;> by_cases hk : f k <;> simp [connect_loop, hk]

theorem connect_loop_spec (f : Nat → Bool) (t : Nat) :
    ∀ k,
      (connect_loop f k t).1 ≤ t + 1
      ∧ ((connect_loop f k t).2.2 = false ↔ ∀ j, k ≤ j → j ≤ k + t → f j = false)
      ∧ ((connect_loop f k t).2.2 = false →
          (connect_loop f k t).1 = t + 1 ∧ (connect_loop f k t).2.1 = t + 1)
      ∧ ((connect_loop f k t).2.2 = true →
          (connect_loop f k t).2.1 = (connect_loop f k t).1 - 1) := by
  induction t with
  | zero =>
    intro k
    by_cases hk : f k
    · have he : connect_loop f k 0 = (1, 0, true) := by simp [connect_loop, hk]
      rw [he]
      refine ⟨by omega, ⟨(fun h => nomatch h), ?_⟩, (fun h => nomatch h), fun _ => rfl⟩
      intro hall
      exact absurd (hall k (Nat.le_refl k) (by omega)) (by simp [hk])
    · have he : connect_loop f k 0 = (1, 1, false) := by simp [connect_loop, hk]
      rw [he]
      refine ⟨by omega, ⟨?_, fun _ => rfl⟩, fun _ => ⟨rfl, rfl⟩, (fun h => nomatch h)⟩
      intro _ j hj1 hj2
      have hjk : j = k := by omega
      subst hjk
      simpa using hk
  | succ t ih =>
    intro k
    by_cases hk : f k
    · have he : connect_loop f k (t + 1) = (1, 0, true) := by simp [connect_loop, hk]
      rw [he]
      refine ⟨by omega, ⟨(fun h => nomatch h), ?_⟩, (fun h => nomatch h), fun _ => rfl⟩
      intro hall
      exact absurd (hall k (Nat.le_refl k) (by omega)) (by simp [hk])
    · obtain ⟨ih1, ih2, ih3, ih4⟩ := ih (k + 1)
      have he : connect_loop f k (t + 1)
          = ((connect_loop f (k + 1) t).1 + 1, (connect_loop f (k + 1) t).2.1 + 1,
             (connect_loop f (k + 1) t).2.2) := by
        simp [connect_loop, hk]
      rw [he]
      dsimp only
      refine ⟨by omega, ?_, ?_, ?_⟩
      · rw [ih2]
        constructor
        · intro hall j hj1 hj2
          by_cases hjk : j = k
          · subst hjk
            simpa using hk
          · exact hall j (by omega) (by omega)
        · intro hall j hj1 hj2
          exact hall j (by omega) (by omega)
      · intro hfail
        obtain ⟨e1, e2⟩ := ih3 hfail
        omega
      · intro hsucc
        have h4 := ih4 hsucc
        have hpos := connect_loop_attempts_pos f t (k + 1)
        omega

/-! ### Claim C8 -/

/-- C8: connect-with-retry is bounded and terminal.  For every timeout
`t ≥ 0` the loop makes at most `t + 1` connect attempts; each failed attempt
is followed by one one-second sleep; and `client_init` returns NULL (with
the descriptor closed and the session freed) exactly when every one of the
attempts fails, in which case all `t + 1` attempts and sleeps occur. -/
theorem C8_connect_retry_bounded (f : Nat → Bool) (t : Nat) :
    (connect_loop f 0 t).1 ≤ t + 1
    ∧ ((connect_loop f 0 t).2.2 = false →
        (connect_loop f 0 t).1 = t + 1 ∧ (connect_loop f 0 t).2.1 = t + 1)
    ∧ ((connect_loop f 0 t).2.2 = true →
        (connect_loop f 0 t).2.1 = (connect_loop f 0 t).1 - 1)
    ∧ (client_init f t = none ↔ ∀ j ≤ t, f j = false) := by
  obtain ⟨h1, h2, h3, h4⟩ := connect_loop_spec f t 0
  refine ⟨h1, h3, h4, ?_⟩
  unfold client_init
  constructor
  · intro hnone j hj
    by_cases hc : (connect_loop f 0 t).2.2
    · rw [if_pos hc] at hnone
      exact nomatch hnone
    · exact (h2.mp (by simpa using hc)) j (by omega) (by omega)
  · intro hall
    rw [if_neg ?_]
    rw [Bool.not_eq_true, h2]
    intro j hj1 hj2
    exact hall j (by omega)

/-- Closed witness for C8: with a timeout of 2 and a server that never comes
up, all 3 attempts fail and `client_init` reports a terminal failure. -/
theorem C8_connect_retry_bounded_witness :
    (connect_loop (fun _ => false) 0 2).1 ≤ 3
    ∧ (connect_loop (fun _ => false) 0 2).1 = 3
    ∧ (connect_loop (fun _ => false) 0 2).2.1 = 3
    ∧ client_init (fun _ => false) 2 = none := by
  obtain ⟨h1, h2, h3, h4⟩ := C8_connect_retry_bounded (fun _ => false) 2
  obtain ⟨e1, e2⟩ := h2 (by decide)
  exact ⟨h1, e1, e2, h4.mpr (fun j hj => rfl)⟩

/-! ### Claim C9 -/

/-- Result of one `client_send_request` call: the request bytes put on the
wire (signature stamped, checksum computed with the field zeroed), the
returned response if any, and whether the call closed the connection. -/
structure ClientSend where
  sent : List Nat
  resp : Option (List Nat)
  closed : Bool
deriving DecidableEq

/-- Function `client_send_request` from `uds.c` as a function of the request bytes,
whether the full send succeeded, and the burst of bytes `recv_data`
returned: stamp and send the request; with no bytes received or an invalid
response packet return NULL; otherwise return a fresh copy of exactly the
received bytes.  No branch closes the socket. -/
def client_send_request (req : List Nat) (sendOk : Bool) (recvd : List Nat) :
    ClientSend :=
  let req_len := HDR + data_len_of req
  let r1 := setU32 req 0 UDS_SIGNATURE
  let r2 := setU16 r1 12 0
  let r3 := setU16 r2 12 (compute_checksum (r2.take req_len))
  let sent := r3.take req_len
  if sendOk = false then ⟨sent, none, false⟩
  else if recvd.length = 0 then ⟨sent, none, false⟩
  else if verify_command_packet recvd then ⟨sent, some recvd, false⟩
  else ⟨sent, none, false⟩

/-- C9: client response retrieval.  When the send succeeds, `b > 0` bytes
are received and they validate, the call returns a copy of exactly those `b`
bytes; when nothing is received or the packet is invalid it returns no
result; and in every case the connection is left open. -/
theorem C9_client_response (req recvd : List Nat) (sendOk : Bool) :
    (sendOk = true → 0 < recvd.length → verify_command_packet recvd = true →
      (client_send_request req sendOk recvd).resp = some recvd
      ∧ ∀ l, (client_send_request req sendOk recvd).resp = some l →
          l.length = recvd.length)
    ∧ (recvd.length = 0 ∨ verify_command_packet recvd = false →
        (client_send_request req sendOk recvd).resp = none)
    ∧ (client_send_request req sendOk recvd).closed = false := by
  refine ⟨?_, ?_, ?_⟩
  · intro hsend hb hv
    have hres : (client_send_request req sendOk recvd).resp = some recvd := by
      unfold client_send_request
      rw [if_neg (by simp [hsend]), if_neg (by omega), if_pos hv]
    refine ⟨hres, fun l hl => ?_⟩
    rw [hres] at hl
    cases hl
    rfl
  · intro hfail
    unfold client_send_request
    rcases hfail with hb | hv
    · by_cases hs : sendOk = false
      · rw [if_pos hs]
      · rw [if_neg hs, if_pos hb]
    · by_cases hs : sendOk = false
      · rw [if_pos hs]
      · by_cases hb : recvd.length = 0
        · rw [if_neg hs, if_pos hb]
        · rw [if_neg hs, if_neg hb, if_neg (by simp [hv])]
  · unfold client_send_request
    split_ifs <;> rfl

/-- Closed witness for C9: a valid 14-byte response is returned as-is, and
an invalid 3-byte burst yields no result; neither closes the connection. -/
theorem C9_client_response_witness :
    (client_send_request [] true
        ([239, 190, 173, 222, 1, 0, 0, 0, 0, 0, 0, 0, 97, 98] : List Nat)).resp
      = some ([239, 190, 173, 222, 1, 0, 0, 0, 0, 0, 0, 0, 97, 98] : List Nat)
    ∧ (client_send_request [] true ([1, 2, 3] : List Nat)).resp = none
    ∧ (client_send_request [] true
        ([239, 190, 173, 222, 1, 0, 0, 0, 0, 0, 0, 0, 97, 98] : List Nat)).closed
      = false :=
  ⟨((C9_client_response [] ([239, 190, 173, 222, 1, 0, 0, 0, 0, 0, 0, 0, 97, 98])
      true).1 rfl (by decide) (by decide)).1,
   (C9_client_response [] ([1, 2, 3]) true).2.1 (Or.inr (by decide)),
   (C9_client_response [] ([239, 190, 173, 222, 1, 0, 0, 0, 0, 0, 0, 0, 97, 98])
      true).2.2⟩

end UDS
